import Mathlib

/-!
Verification of the round state machine and timed-sequence playback engine of
the Simon Says game in `src/script.js`.

The embedding translates the source directly:
  * `Color`, `LEVELS`           — the signal set and level catalog (lines 8-16);
  * `GameState`                 — the mutable `state` object (lines 24-33), extended with
                                  explicit fields for the pending asynchronous registrations
                                  (the in-flight `requestAnimationFrame` playback of
                                  `playSequenceWithRaf` and the 650 ms `setTimeout` of
                                  `advanceLevelOrWin`), the recorded final/victory scores
                                  (the DOM writes to `final-score` / `victory-score`), and a
                                  ghost counter `roundsCompleted` of rounds completed in the
                                  current run;
  * `beginRound`, `startRunFromLevel`, `advanceLevelOrWin`, `onPadPress`,
    `replayClick`, `playbackDone`, `timeoutFire`, `showScreen`
                                 — the state-mutating functions (lines 166-275, 319-334);
    randomness (`randColor`) is passed in as an explicit oracle argument;
  * `step` / `Reachable`        — the event-level transition system induced by the DOM
                                  wiring of `attachEvents` (lines 309-343): a button click is
                                  only deliverable while the screen holding that button is
                                  the active one, and the asynchronous completions
                                  (`playbackEnds`, `timerFires`) only fire while registered;
  * `frameLoop` / `playSequenceWithRaf`
                                 — the pure timing core of `playSequenceWithRaf`
                                  (lines 277-307): the inner `frame` callback iterated over a
                                  finite list of tick timestamps, returning the list of
                                  (timestamp, sequence index) emission events and,
                                  optionally, the timestamp at which `onDone` ran.
Visual/audio rendering (`glowPad` CSS classes, Web Audio calls, `statusText`) are the
excluded presentation collaborators; the signal-feedback effects a press triggers are
returned explicitly as an `Effect` list.
-/

/-- The four signal colors (`COLORS`, line 16). -/
inductive Color where
  | red
  | blue
  | green
  | yellow
deriving DecidableEq, Repr

/-- One catalog entry (`LEVELS` element, lines 8-14). -/
structure Level where
  id : Nat
  sequenceLength : Nat
  stepMs : Nat
deriving DecidableEq, Repr

/-- The level catalog (lines 8-14). -/
def LEVELS : List Level :=
  [⟨1, 3, 700⟩, ⟨2, 4, 620⟩, ⟨3, 5, 540⟩, ⟨4, 6, 470⟩, ⟨5, 7, 400⟩]

/-- The five screens (`screens` map, lines 35-41). -/
inductive Screen where
  | menu
  | levels
  | game
  | gameover
  | victory
deriving DecidableEq, Repr

/-- Which onDone closure a pending `playSequenceWithRaf` call will run on completion:
the one installed by `beginRound` (line 214) or the one installed by the
replay-button handler (line 328). -/
inductive PlaybackKind where
  | roundStart
  | replay
deriving DecidableEq, Repr

/-- The game state (`state` object, lines 24-33) plus explicit pending-callback fields,
the recorded final/victory score texts, and the ghost counter `roundsCompleted`. -/
structure GameState where
  screen : Screen
  levelIndex : Nat
  score : Nat
  sequence : List Color
  inputIndex : Nat
  acceptingInput : Bool
  musicEnabled : Bool
  isAnimatingSequence : Bool
  pendingPlayback : Option PlaybackKind
  pendingTimeout : Bool
  finalScore : Option Nat
  victoryScore : Option Nat
  roundsCompleted : Nat
deriving DecidableEq, Repr

/-- The initial state (lines 24-33; `init` shows the menu screen, line 348). -/
def initState : GameState :=
  { screen := Screen.menu
    levelIndex := 0
    score := 0
    sequence := []
    inputIndex := 0
    acceptingInput := false
    musicEnabled := true
    isAnimatingSequence := false
    pendingPlayback := none
    pendingTimeout := false
    finalScore := none
    victoryScore := none
    roundsCompleted := 0 }

/-- The feedback effects a pad press triggers (`glowPad`, `playColorSound`,
`playWrongSound`; lines 257-258, 263). -/
inductive Effect where
  | glowPad (c : Color)
  | colorSound (c : Color)
  | wrongSound
deriving DecidableEq, Repr

/-- `showScreen(name)` (lines 166-171): sets `state.screen`. -/
def showScreen (name : Screen) (s : GameState) : GameState :=
  { s with screen := name }

/-- `beginRound()` (lines 207-219): clears `acceptingInput`, sets
`isAnimatingSequence`, resets `inputIndex`, and starts a playback whose onDone
closure is the round-start one. -/
def beginRound (s : GameState) : GameState :=
  { s with acceptingInput := false
           isAnimatingSequence := true
           inputIndex := 0
           pendingPlayback := some PlaybackKind.roundStart }

/-- `startRunFromLevel(index)` (lines 221-234): sets the level index, resets the
score, fills a fresh sequence of `LEVELS[index].sequenceLength` oracle-drawn
colors, shows the game screen and begins the round. The ghost counter of
completed rounds is reset with the score. -/
def startRunFromLevel (index : Nat) (rng : Nat → Color) (s : GameState) : GameState :=
  beginRound
    { s with levelIndex := index
             score := 0
             roundsCompleted := 0
             sequence := (List.range (LEVELS.getD index ⟨0, 0, 0⟩).sequenceLength).map rng
             screen := Screen.game }

/-- `advanceLevelOrWin()` (lines 236-250): adds 100 to the score (and bumps the
ghost round counter); on the last catalog entry records the victory score and
shows the victory screen, otherwise increments the level, appends one
oracle-drawn color and registers the 650 ms `setTimeout(beginRound, 650)`. -/
def advanceLevelOrWin (r : Color) (s : GameState) : GameState :=
  let s1 := { s with score := s.score + 100, roundsCompleted := s.roundsCompleted + 1 }
  if s1.levelIndex = LEVELS.length - 1 then
    { s1 with victoryScore := some s1.score, screen := Screen.victory }
  else
    { s1 with levelIndex := s1.levelIndex + 1
              sequence := s1.sequence ++ [r]
              pendingTimeout := true }

/-- `onPadPress(color)` (lines 252-275). Returns the new state and the feedback
effects fired. The guard (line 253) silently ignores the press unless input is
accepted, no playback is animating, and the game screen is active. A press that
passes the guard glows and sounds the pad; a mismatch against
`sequence[inputIndex]` (`some c ≠ get?` also covers the out-of-range comparison
against `undefined`) clears `acceptingInput`, plays the wrong sound, records the
final score and shows the gameover screen; a match increments `inputIndex`, and
on reaching the sequence length clears `acceptingInput` and runs
`advanceLevelOrWin`. -/
def onPadPress (c : Color) (r : Color) (s : GameState) : GameState × List Effect :=
  if s.acceptingInput = false ∨ s.isAnimatingSequence = true ∨ s.screen ≠ Screen.game then
    (s, [])
  else
    let fx := [Effect.glowPad c, Effect.colorSound c]
    if some c ≠ s.sequence.get? s.inputIndex then
      ({ s with acceptingInput := false
                finalScore := some s.score
                screen := Screen.gameover },
       fx ++ [Effect.wrongSound])
    else
      let s1 := { s with inputIndex := s.inputIndex + 1 }
      if s1.sequence.length ≤ s1.inputIndex then
        (advanceLevelOrWin r { s1 with acceptingInput := false }, fx)
      else
        (s1, fx)

/-- The replay-button handler (lines 319-334): ignored unless the game screen is
active, no playback is animating and input is accepted; otherwise clears
`acceptingInput`, sets `isAnimatingSequence` and starts a playback whose onDone
closure is the replay one. -/
def replayClick (s : GameState) : GameState :=
  if s.screen ≠ Screen.game ∨ s.isAnimatingSequence = true ∨ s.acceptingInput = false then
    s
  else
    { s with acceptingInput := false
             isAnimatingSequence := true
             pendingPlayback := some PlaybackKind.replay }

/-- The two onDone closures a completed playback runs: the round-start one
(lines 214-218) restores the flags; the replay one (lines 328-333) additionally
resets `inputIndex` to 0. Completion consumes the registration. -/
def playbackDone (k : PlaybackKind) (s : GameState) : GameState :=
  match k with
  | PlaybackKind.roundStart =>
      { s with isAnimatingSequence := false
               acceptingInput := true
               pendingPlayback := none }
  | PlaybackKind.replay =>
      { s with isAnimatingSequence := false
               acceptingInput := true
               inputIndex := 0
               pendingPlayback := none }

/-- The 650 ms timer of `advanceLevelOrWin` firing (line 249): consumes the
registration and runs `beginRound`. -/
def timeoutFire (s : GameState) : GameState :=
  beginRound { s with pendingTimeout := false }

/-- The external events of the system: the button clicks wired in
`attachEvents` (lines 309-343) and `createLevelButtons` (line 200), the
completion of a pending playback, and the firing of the pending 650 ms timer.
Random draws (`randColor`) are carried by the event as explicit oracles. -/
inductive Event where
  | clickStart
  | clickBackFromLevels
  | clickRestart
  | clickPlayAgain
  | clickBackFromGameover
  | clickBackFromVictory
  | clickLevel (i : Nat) (rng : Nat → Color)
  | clickReplay
  | clickPad (c : Color) (r : Color)
  | playbackEnds
  | timerFires
  | toggleMusic

/-- One event step. A navigation button can only be clicked while the screen
holding it is active (hidden screens are `display`-toggled by `showScreen`);
`clickReplay` and `clickPad` carry their own guards inside the handlers;
`playbackEnds` and `timerFires` only act on a pending registration. -/
def step (e : Event) (s : GameState) : GameState :=
  match e with
  | Event.clickStart => if s.screen = Screen.menu then showScreen Screen.levels s else s
  | Event.clickBackFromLevels => if s.screen = Screen.levels then showScreen Screen.menu s else s
  | Event.clickRestart => if s.screen = Screen.gameover then showScreen Screen.levels s else s
  | Event.clickPlayAgain => if s.screen = Screen.victory then showScreen Screen.levels s else s
  | Event.clickBackFromGameover => if s.screen = Screen.gameover then showScreen Screen.menu s else s
  | Event.clickBackFromVictory => if s.screen = Screen.victory then showScreen Screen.menu s else s
  | Event.clickLevel i rng =>
      if s.screen = Screen.levels ∧ i < LEVELS.length then startRunFromLevel i rng s else s
  | Event.clickReplay => replayClick s
  | Event.clickPad c r => (onPadPress c r s).1
  | Event.playbackEnds =>
      match s.pendingPlayback with
      | some k => playbackDone k s
      | none => s
  | Event.timerFires => if s.pendingTimeout = true then timeoutFire s else s
  | Event.toggleMusic => { s with musicEnabled := !s.musicEnabled }

/-- The states reachable from `initState` through event steps. -/
inductive Reachable : GameState → Prop where
  | init : Reachable initState
  | step (e : Event) {s : GameState} : Reachable s → Reachable (step e s)

/-- Fold a list of events over a state. -/
def runTrace (evts : List Event) (s : GameState) : GameState :=
  evts.foldl (fun t e => step e t) s

/-- Pressing the expected pad `k` times in a row (each press submits
`sequence[inputIndex]`, the currently expected signal). -/
def pressCorrect (r : Color) : Nat → GameState → GameState
  | 0, s => s
  | fuel + 1, s =>
      pressCorrect r fuel (onPadPress (s.sequence.getD s.inputIndex Color.red) r s).1

/-! ## The playback engine (`playSequenceWithRaf`, lines 277-307) -/

/-- The local loop state of `playSequenceWithRaf`: the next index to emit and
the `lastStamp` variable (initially 0, which the source also uses as the
"no emit yet" sentinel via `if (!lastStamp)`). -/
structure RafState where
  idx : Nat
  lastStamp : Nat
deriving DecidableEq, Repr

/-- `const minInterval = Math.max(280, stepMs)` (line 280). -/
def minInterval (stepMs : Nat) : Nat := max 280 stepMs

/-- The inner `frame(ts)` callback (lines 282-304) iterated over a finite list
of tick timestamps. Returns the emission events as (timestamp, emitted index)
pairs — the source emits `sequence[idx]` there — and `some t` when `onDone` ran
at timestamp `t` (after which no further frame is requested). A falsy
`lastStamp` (value 0) takes the first-emit branch; otherwise an emit or the
completion happens only once `minInterval ≤ ts - lastStamp`. -/
def frameLoop (seqLen minI : Nat) : RafState → List Nat → List (Nat × Nat) × Option Nat
  | _, [] => ([], none)
  | s, ts :: rest =>
    if s.lastStamp = 0 then
      let out := frameLoop seqLen minI ⟨s.idx + 1, ts⟩ rest
      ((ts, s.idx) :: out.1, out.2)
    else if minI ≤ ts - s.lastStamp then
      if seqLen ≤ s.idx then
        ([], some ts)
      else
        let out := frameLoop seqLen minI ⟨s.idx + 1, ts⟩ rest
        ((ts, s.idx) :: out.1, out.2)
    else
      frameLoop seqLen minI s rest

/-- `playSequenceWithRaf(sequence, stepMs, onDone)` (lines 277-307) run over a
list of tick timestamps, starting from `idx = 0`, `lastStamp = 0`. -/
def playSequenceWithRaf (seqLen stepMs : Nat) (ticks : List Nat) :
    List (Nat × Nat) × Option Nat :=
  frameLoop seqLen (minInterval stepMs) ⟨0, 0⟩ ticks

/-- Consecutive emission events are at least `minI` of tick time apart. -/
def Spaced (minI : Nat) (es : List (Nat × Nat)) : Prop :=
  es.Chain' (fun a b => a.1 + minI ≤ b.1)

instance (minI : Nat) (es : List (Nat × Nat)) : Decidable (Spaced minI es) :=
  inferInstanceAs (Decidable (es.Chain' _))

/-! ## Derived definitions used by the statements -/

/-- The master invariant of reachable states: the two sub-mode flags are never
both set; the animation flag tracks exactly the pending playback registration;
off the game screen nothing is pending; while the 650 ms timer is pending the
machine is in the inter-round pause (no input accepted, nothing animating);
the score is 100 per completed round; and on the victory screen the recorded
victory score is the current score. -/
def StateInv (s : GameState) : Prop :=
  (s.acceptingInput = false ∨ s.isAnimatingSequence = false) ∧
  (s.isAnimatingSequence = false ↔ s.pendingPlayback = none) ∧
  (s.screen = Screen.game ∨ (s.pendingPlayback = none ∧ s.pendingTimeout = false)) ∧
  (s.pendingTimeout = false ∨
    (s.acceptingInput = false ∧ s.isAnimatingSequence = false ∧ s.pendingPlayback = none)) ∧
  s.score = 100 * s.roundsCompleted ∧
  (s.screen = Screen.victory → s.victoryScore = some s.score)

/-- A constant random oracle, used for concrete traces. -/
def rng0 : Nat → Color := fun _ => Color.red

/-- `k` presses of the red pad (with a red oracle draw). -/
def pressReds (k : Nat) : List Event :=
  List.replicate k (Event.clickPad Color.red Color.red)

/-- A complete winning run started from the first catalog level, with every
random draw red: start, pick level 1, let each playback finish, reproduce each
sequence, let each 650 ms pause elapse. -/
def winTrace : List Event :=
  [Event.clickStart, Event.clickLevel 0 rng0, Event.playbackEnds] ++
  pressReds 3 ++ [Event.timerFires, Event.playbackEnds] ++
  pressReds 4 ++ [Event.timerFires, Event.playbackEnds] ++
  pressReds 5 ++ [Event.timerFires, Event.playbackEnds] ++
  pressReds 6 ++ [Event.timerFires, Event.playbackEnds] ++
  pressReds 7

/-- The reachable state right after the first playback of a run from the first
catalog level has completed: game screen, input accepted, cursor at 0. -/
def readyState : GameState :=
  runTrace [Event.clickStart, Event.clickLevel 0 rng0, Event.playbackEnds] initState

/-- The reachable state during the 650 ms inter-round pause: the first round
has just been reproduced correctly, `advanceLevelOrWin` has run, and the
`setTimeout(beginRound, 650)` registration is still pending. -/
def staleState : GameState :=
  runTrace (pressReds 3) readyState

/-- The state after the player, from `s`, presses the expected pad for every
remaining position of the current sequence. -/
def afterCorrectRun (r : Color) (s : GameState) : GameState :=
  pressCorrect r (s.sequence.length - s.inputIndex) s

/-! ## Claim C6: presses outside the accepting state are silent no-ops -/

/-- Claim C6: every pad press arriving while the state is not
(game screen active, input accepted, no playback animating) is silently
ignored: the state is returned unchanged and no feedback effect fires. -/
theorem press_ignored_when_not_accepting (s : GameState) (c r : Color)
    (h : ¬(s.screen = Screen.game ∧ s.acceptingInput = true ∧
           s.isAnimatingSequence = false)) :
    onPadPress c r s = (s, []) := by
  have hg : s.acceptingInput = false ∨ s.isAnimatingSequence = true ∨
      s.screen ≠ Screen.game := by
    by_contra hng
    push_neg at hng
    obtain ⟨ha, hb, hc⟩ := hng
    exact h ⟨hc, by simpa using ha, by simpa using hb⟩
  simp only [onPadPress, if_pos hg]

/-- Witness for C6: a press during the very first playback (animation in
flight) leaves the state untouched and triggers nothing. -/
theorem press_ignored_when_not_accepting_witness :
    onPadPress Color.blue Color.red
        (runTrace [Event.clickStart, Event.clickLevel 0 rng0] initState) =
      (runTrace [Event.clickStart, Event.clickLevel 0 rng0] initState, []) :=
  press_ignored_when_not_accepting _ Color.blue Color.red (by decide)

/-! ## Claim C5: a mismatched press transitions to game over -/

/-- Claim C5: while input is accepted on the game screen, submitting a signal
different from `sequence[inputCursor]` immediately clears `acceptingInput`,
fires the pad feedback plus the failure-feedback effect, records the current
score as the final score, and shows the gameover screen; the score itself is
unchanged by the mismatch. -/
theorem mismatch_transitions_gameover (s : GameState) (c r : Color)
    (hscr : s.screen = Screen.game) (hacc : s.acceptingInput = true)
    (hani : s.isAnimatingSequence = false)
    (hne : some c ≠ s.sequence.get? s.inputIndex) :
    onPadPress c r s =
      ({ s with acceptingInput := false
                finalScore := some s.score
                screen := Screen.gameover },
       [Effect.glowPad c, Effect.colorSound c, Effect.wrongSound]) ∧
    (onPadPress c r s).1.score = s.score := by
  have hg : ¬(s.acceptingInput = false ∨ s.isAnimatingSequence = true ∨
      s.screen ≠ Screen.game) := by
    simp [hacc, hani, hscr]
  refine ⟨?_, ?_⟩ <;> simp only [onPadPress, if_neg hg, if_pos hne] <;> rfl

/-- Witness for C5: on an all-new round (score 0, cursor 0, sequence
`[red, red, red]`), pressing blue records final score 0 and shows the
gameover screen. -/
theorem mismatch_transitions_gameover_witness :
    onPadPress Color.blue Color.red readyState =
      ({ readyState with acceptingInput := false
                         finalScore := some readyState.score
                         screen := Screen.gameover },
       [Effect.glowPad Color.blue, Effect.colorSound Color.blue,
        Effect.wrongSound]) ∧
    (onPadPress Color.blue Color.red readyState).1.score = readyState.score :=
  mismatch_transitions_gameover readyState Color.blue Color.red
    (by decide) (by decide) (by decide) (by decide)

/-! ## Claim C7: level advance appends exactly one signal -/

/-- Claim C7: when `advanceLevelOrWin` runs with the level index not at the
last catalog entry, the new sequence is the old one with exactly one signal
appended: length grows by one and every old position is unchanged. -/
theorem advance_appends_one_signal (s : GameState) (r : Color)
    (h : s.levelIndex ≠ LEVELS.length - 1) :
    (advanceLevelOrWin r s).sequence = s.sequence ++ [r] ∧
    (advanceLevelOrWin r s).sequence.length = s.sequence.length + 1 ∧
    ∀ i, i < s.sequence.length →
      (advanceLevelOrWin r s).sequence.get? i = s.sequence.get? i := by
  have hseq : (advanceLevelOrWin r s).sequence = s.sequence ++ [r] := by
    simp only [advanceLevelOrWin]
    rw [if_neg h]
  refine ⟨hseq, by rw [hseq]; simp, ?_⟩
  intro i hi
  rw [hseq, List.get?_append hi]

/-- Witness for C7: advancing from the first-round state appends the drawn
color to the three-element sequence. -/
theorem advance_appends_one_signal_witness :
    (advanceLevelOrWin Color.blue readyState).sequence =
        readyState.sequence ++ [Color.blue] ∧
    (advanceLevelOrWin Color.blue readyState).sequence.length =
        readyState.sequence.length + 1 ∧
    ∀ i, i < readyState.sequence.length →
      (advanceLevelOrWin Color.blue readyState).sequence.get? i =
        readyState.sequence.get? i :=
  advance_appends_one_signal readyState Color.blue (by decide)

/-! ## Claim C9: starting a run resets the state and draws a fresh sequence -/

/-- Claim C9: starting a run from catalog index `i` resets the score to 0,
sets the level index to `i`, generates a fresh sequence of exactly
`LEVELS[i].sequenceLength` signals, and enters the game screen in the
playback sub-mode. -/
theorem startRun_fresh_sequence (i : Nat) (rng : Nat → Color) (s : GameState)
    (hi : i < LEVELS.length) :
    (startRunFromLevel i rng s).score = 0 ∧
    (startRunFromLevel i rng s).levelIndex = i ∧
    (startRunFromLevel i rng s).sequence.length =
      (LEVELS.get ⟨i, hi⟩).sequenceLength ∧
    (startRunFromLevel i rng s).screen = Screen.game ∧
    (startRunFromLevel i rng s).isAnimatingSequence = true ∧
    (startRunFromLevel i rng s).acceptingInput = false ∧
    (startRunFromLevel i rng s).pendingPlayback = some PlaybackKind.roundStart := by
  refine ⟨rfl, rfl, ?_, rfl, rfl, rfl, rfl⟩
  show ((List.range (LEVELS.getD i ⟨0, 0, 0⟩).sequenceLength).map rng).length =
    (LEVELS.get ⟨i, hi⟩).sequenceLength
  rw [List.length_map, List.length_range]
  congr 1
  rw [List.getD_eq_get?, List.get?_eq_get hi]
  rfl

/-- Witness for C9: starting from catalog index 2 yields a five-signal
sequence, level index 2, score 0, in playback sub-mode. -/
theorem startRun_fresh_sequence_witness :
    (startRunFromLevel 2 rng0 initState).score = 0 ∧
    (startRunFromLevel 2 rng0 initState).levelIndex = 2 ∧
    (startRunFromLevel 2 rng0 initState).sequence.length =
      (LEVELS.get ⟨2, by decide⟩).sequenceLength ∧
    (startRunFromLevel 2 rng0 initState).screen = Screen.game ∧
    (startRunFromLevel 2 rng0 initState).isAnimatingSequence = true ∧
    (startRunFromLevel 2 rng0 initState).acceptingInput = false ∧
    (startRunFromLevel 2 rng0 initState).pendingPlayback =
      some PlaybackKind.roundStart :=
  startRun_fresh_sequence 2 rng0 initState (by decide)

/-! ## Claim C8: replay only resets the input cursor -/

/-- Claim C8: a player-triggered replay (available only on the game screen
while input is accepted) followed by its playback completion leaves the state
exactly as before except that the input cursor is reset to 0: score, level
index and sequence contents are untouched. -/
theorem replay_only_resets_cursor (s : GameState)
    (hscr : s.screen = Screen.game) (hani : s.isAnimatingSequence = false)
    (hacc : s.acceptingInput = true) (hpp : s.pendingPlayback = none) :
    (replayClick s).pendingPlayback = some PlaybackKind.replay ∧
    step Event.playbackEnds (replayClick s) = { s with inputIndex := 0 } ∧
    (step Event.playbackEnds (replayClick s)).score = s.score ∧
    (step Event.playbackEnds (replayClick s)).levelIndex = s.levelIndex ∧
    (step Event.playbackEnds (replayClick s)).sequence = s.sequence ∧
    (step Event.playbackEnds (replayClick s)).inputIndex = 0 := by
  have hg : ¬(s.screen ≠ Screen.game ∨ s.isAnimatingSequence = true ∨
      s.acceptingInput = false) := by
    simp [hscr, hani, hacc]
  have h1 : replayClick s =
      { s with acceptingInput := false
               isAnimatingSequence := true
               pendingPlayback := some PlaybackKind.replay } := by
    simp only [replayClick, if_neg hg]
  have h2 : step Event.playbackEnds (replayClick s) = { s with inputIndex := 0 } := by
    rw [h1]
    show playbackDone PlaybackKind.replay _ = _
    simp only [playbackDone]
    cases s
    simp_all
  exact ⟨by rw [h1], h2, by rw [h2], by rw [h2], by rw [h2], by rw [h2]⟩

/-- Witness for C8: replaying from the first accepting state and letting the
replay finish returns exactly the same state with cursor 0. -/
theorem replay_only_resets_cursor_witness :
    (replayClick readyState).pendingPlayback = some PlaybackKind.replay ∧
    step Event.playbackEnds (replayClick readyState) =
      { readyState with inputIndex := 0 } ∧
    (step Event.playbackEnds (replayClick readyState)).score = readyState.score ∧
    (step Event.playbackEnds (replayClick readyState)).levelIndex =
      readyState.levelIndex ∧
    (step Event.playbackEnds (replayClick readyState)).sequence =
      readyState.sequence ∧
    (step Event.playbackEnds (replayClick readyState)).inputIndex = 0 :=
  replay_only_resets_cursor readyState (by decide) (by decide) (by decide) (by decide)

/-! ## The master invariant holds in every reachable state -/

lemma stateInv_initState : StateInv initState := by
  refine ⟨Or.inl rfl, by simp [initState], Or.inr ⟨rfl, rfl⟩, Or.inl rfl, rfl, ?_⟩
  intro h
  simp [initState] at h

lemma stateInv_showScreen (s : GameState) (name : Screen)
    (hname : name ≠ Screen.victory) (hpn : s.pendingPlayback = none)
    (hpt : s.pendingTimeout = false) (h : StateInv s) :
    StateInv (showScreen name s) := by
  obtain ⟨h1, h2, h3, h4, h5, h6⟩ := h
  exact ⟨h1, h2, Or.inr ⟨hpn, hpt⟩, h4, h5, fun hv => absurd hv hname⟩

lemma stateInv_beginRound (s : GameState) (hscr : s.screen = Screen.game)
    (hpt : s.pendingTimeout = false) (hsc : s.score = 100 * s.roundsCompleted) :
    StateInv (beginRound s) := by
  refine ⟨Or.inl rfl, by simp [beginRound], Or.inl hscr, Or.inl hpt, hsc, ?_⟩
  intro hv
  rw [show (beginRound s).screen = s.screen from rfl, hscr] at hv
  cases hv

lemma stateInv_startRunFromLevel (i : Nat) (rng : Nat → Color) (s : GameState)
    (hpt : s.pendingTimeout = false) : StateInv (startRunFromLevel i rng s) :=
  stateInv_beginRound _ rfl hpt rfl

lemma stateInv_advanceLevelOrWin (r : Color) (s : GameState)
    (hacc : s.acceptingInput = false) (hani : s.isAnimatingSequence = false)
    (hpp : s.pendingPlayback = none) (hpt : s.pendingTimeout = false)
    (hscr : s.screen = Screen.game) (hsc : s.score = 100 * s.roundsCompleted) :
    StateInv (advanceLevelOrWin r s) := by
  unfold advanceLevelOrWin
  by_cases hl : s.levelIndex = LEVELS.length - 1
  · rw [if_pos hl]
    refine ⟨Or.inl hacc, by simp [hani, hpp], Or.inr ⟨hpp, hpt⟩, Or.inl hpt, ?_, ?_⟩
    · show s.score + 100 = 100 * (s.roundsCompleted + 1)
      omega
    · intro _
      rfl
  · rw [if_neg hl]
    refine ⟨Or.inl hacc, by simp [hani, hpp], Or.inl hscr, Or.inr ⟨hacc, hani, hpp⟩, ?_, ?_⟩
    · show s.score + 100 = 100 * (s.roundsCompleted + 1)
      omega
    · intro hv
      exact Screen.noConfusion (hscr.symm.trans hv)

lemma stateInv_onPadPress (c r : Color) (s : GameState) (h : StateInv s) :
    StateInv (onPadPress c r s).1 := by
  obtain ⟨h1, h2, h3, h4, h5, h6⟩ := h
  by_cases hg : s.acceptingInput = false ∨ s.isAnimatingSequence = true ∨
      s.screen ≠ Screen.game
  · rw [onPadPress, if_pos hg]
    exact ⟨h1, h2, h3, h4, h5, h6⟩
  · push_neg at hg
    obtain ⟨ha, hb, hc⟩ := hg
    have hacc : s.acceptingInput = true := by simpa using ha
    have hani : s.isAnimatingSequence = false := by simpa using hb
    have hpp : s.pendingPlayback = none := h2.mp hani
    have hpt : s.pendingTimeout = false := by
      rcases h4 with h4 | ⟨h4, _⟩
      · exact h4
      · rw [hacc] at h4
        cases h4
    rw [onPadPress, if_neg (by simp [hacc, hani, hc])]
    by_cases hm : some c ≠ s.sequence.get? s.inputIndex
    · rw [if_pos hm]
      refine ⟨Or.inl rfl, by simp [hani, hpp], Or.inr ⟨hpp, hpt⟩, Or.inl hpt, h5, ?_⟩
      intro hv
      cases hv
    · rw [if_neg hm]
      by_cases hdone : ({ s with inputIndex := s.inputIndex + 1 } : GameState).sequence.length ≤
          ({ s with inputIndex := s.inputIndex + 1 } : GameState).inputIndex
      · rw [if_pos hdone]
        exact stateInv_advanceLevelOrWin r _ rfl hani hpp hpt hc h5
      · rw [if_neg hdone]
        exact ⟨h1, h2, h3, h4, h5, h6⟩

lemma stateInv_replayClick (s : GameState) (h : StateInv s) :
    StateInv (replayClick s) := by
  obtain ⟨h1, h2, h3, h4, h5, h6⟩ := h
  by_cases hg : s.screen ≠ Screen.game ∨ s.isAnimatingSequence = true ∨
      s.acceptingInput = false
  · rw [replayClick, if_pos hg]
    exact ⟨h1, h2, h3, h4, h5, h6⟩
  · push_neg at hg
    obtain ⟨hc, hb, ha⟩ := hg
    have hacc : s.acceptingInput = true := by simpa using ha
    have hani : s.isAnimatingSequence = false := by simpa using hb
    have hpt : s.pendingTimeout = false := by
      rcases h4 with h4 | ⟨h4, _⟩
      · exact h4
      · rw [hacc] at h4
        cases h4
    rw [replayClick, if_neg (by simp [hacc, hani, hc])]
    refine ⟨Or.inl rfl, by simp, Or.inl hc, Or.inl hpt, h5, ?_⟩
    intro hv
    exact Screen.noConfusion (hc.symm.trans hv)

lemma stateInv_playbackDone (k : PlaybackKind) (s : GameState)
    (hpp : s.pendingPlayback = some k) (h : StateInv s) :
    StateInv (playbackDone k s) := by
  obtain ⟨h1, h2, h3, h4, h5, h6⟩ := h
  have hscr : s.screen = Screen.game := by
    rcases h3 with h3 | ⟨h3, _⟩
    · exact h3
    · rw [h3] at hpp
      cases hpp
  have hpt : s.pendingTimeout = false := by
    rcases h4 with h4 | ⟨_, _, h4⟩
    · exact h4
    · rw [h4] at hpp
      cases hpp
  cases k <;>
    exact ⟨Or.inr rfl, by simp [playbackDone], Or.inl hscr, Or.inl hpt, h5,
      fun hv => Screen.noConfusion (hscr.symm.trans hv)⟩

lemma stateInv_step (e : Event) (s : GameState) (h : StateInv s) :
    StateInv (step e s) := by
  have hnav : ∀ old : Screen, old ≠ Screen.game → ∀ nw : Screen,
      nw ≠ Screen.victory → s.screen = old → StateInv (showScreen nw s) := by
    intro old hold nw hnw hsold
    rcases h.2.2.1 with h3 | ⟨hpn, hpt⟩
    · rw [hsold] at h3
      exact absurd h3 hold
    · exact stateInv_showScreen s nw hnw hpn hpt h
  cases e with
  | clickStart =>
      rw [step]
      split
      · exact hnav Screen.menu (by decide) Screen.levels (by decide) (by assumption)
      · exact h
  | clickBackFromLevels =>
      rw [step]
      split
      · exact hnav Screen.levels (by decide) Screen.menu (by decide) (by assumption)
      · exact h
  | clickRestart =>
      rw [step]
      split
      · exact hnav Screen.gameover (by decide) Screen.levels (by decide) (by assumption)
      · exact h
  | clickPlayAgain =>
      rw [step]
      split
      · exact hnav Screen.victory (by decide) Screen.levels (by decide) (by assumption)
      · exact h
  | clickBackFromGameover =>
      rw [step]
      split
      · exact hnav Screen.gameover (by decide) Screen.menu (by decide) (by assumption)
      · exact h
  | clickBackFromVictory =>
      rw [step]
      split
      · exact hnav Screen.victory (by decide) Screen.menu (by decide) (by assumption)
      · exact h
  | clickLevel i rng =>
      rw [step]
      split
      · rename_i hcond
        obtain ⟨_, _, h3, _, _, _⟩ := h
        rcases h3 with h3 | ⟨_, hpt⟩
        · rw [hcond.1] at h3
          cases h3
        · exact stateInv_startRunFromLevel i rng s hpt
      · exact h
  | clickReplay => exact stateInv_replayClick s h
  | clickPad c r => exact stateInv_onPadPress c r s h
  | playbackEnds =>
      rw [step]
      cases hpp : s.pendingPlayback with
      | some k => exact stateInv_playbackDone k s hpp h
      | none => exact h
  | timerFires =>
      rw [step]
      split
      · rename_i hpt
        obtain ⟨_, _, h3, _, h5, _⟩ := h
        have hscr : s.screen = Screen.game := by
          rcases h3 with h3 | ⟨_, h3⟩
          · exact h3
          · rw [h3] at hpt
            cases hpt
        exact stateInv_beginRound _ hscr rfl h5
      · exact h
  | toggleMusic => exact h

lemma stateInv_reachable (s : GameState) (h : Reachable s) : StateInv s := by
  induction h with
  | init => exact stateInv_initState
  | step e hs ih => exact stateInv_step e _ ih

/-! ## Claim C2: the two sub-mode flags are mutually exclusive -/

/-- Claim C2: in every reachable game state, `acceptingInput` and
`isAnimatingSequence` are never both true; every event step preserves this. -/
theorem flags_mutual_exclusion (s : GameState) (h : Reachable s) :
    ¬(s.acceptingInput = true ∧ s.isAnimatingSequence = true) := by
  rintro ⟨ha, hb⟩
  rcases (stateInv_reachable s h).1 with h1 | h1
  · rw [ha] at h1
    cases h1
  · rw [hb] at h1
    cases h1

/-- Witness for C2 at the state in which a replay playback is in flight. -/
theorem flags_mutual_exclusion_witness :
    ¬((step Event.clickReplay readyState).acceptingInput = true ∧
      (step Event.clickReplay readyState).isAnimatingSequence = true) :=
  flags_mutual_exclusion _
    (Reachable.step Event.clickReplay
      (Reachable.step Event.playbackEnds
        (Reachable.step (Event.clickLevel 0 rng0)
          (Reachable.step Event.clickStart Reachable.init))))

/-! ## Claim C3: no cancellation exists; stale callbacks are avoided by
reachability instead -/

/-- Counterexample to claim C3 as stated. `staleState` is the reachable state
during the 650 ms inter-round pause (its `setTimeout(beginRound, 650)` is
registered). Calling `startRunFromLevel` there does not cancel the
registration — the source stores neither the timer id nor the rAF id and never
calls `clearTimeout`/`cancelAnimationFrame` — and the stale timer then fires
into the fresh round: after the fresh run's first playback completes (player's
turn, input accepted), the superseded round's timer yanks the state back into
playback, flipping `acceptingInput` off. Likewise `showScreen` (returning
to a menu) leaves the registration pending. -/
theorem startRun_cancels_nothing_cex :
    staleState.pendingTimeout = true ∧
    (startRunFromLevel 0 rng0 staleState).pendingTimeout = true ∧
    (showScreen Screen.menu staleState).pendingTimeout = true ∧
    (step Event.playbackEnds (startRunFromLevel 0 rng0 staleState)).acceptingInput
        = true ∧
    (step Event.timerFires
        (step Event.playbackEnds (startRunFromLevel 0 rng0 staleState))).acceptingInput
        = false ∧
    (step Event.timerFires
        (step Event.playbackEnds (startRunFromLevel 0 rng0 staleState))).isAnimatingSequence
        = true := by
  decide

/-- Claim C3, amended: the code cancels nothing; instead, in every reachable
state a pending playback or pending 650 ms timer can only exist while the game
screen is active — and since starting a new run requires the level-select
screen and the menus require their own screens, no run ever starts and no menu
is ever reached while a registration of a superseded round is pending. -/
theorem pending_only_on_game_screen (s : GameState) (h : Reachable s)
    (hp : s.pendingPlayback ≠ none ∨ s.pendingTimeout = true) :
    s.screen = Screen.game := by
  obtain ⟨_, _, h3, _, _, _⟩ := stateInv_reachable s h
  rcases h3 with h3 | ⟨hpn, hpt⟩
  · exact h3
  · rcases hp with hp | hp
    · exact absurd hpn hp
    · rw [hpt] at hp
      cases hp

/-- Witness for C3 (amended) at the reachable pause state with the 650 ms
timer pending. -/
theorem pending_only_on_game_screen_witness : staleState.screen = Screen.game :=
  pending_only_on_game_screen staleState
    (Reachable.step (Event.clickPad Color.red Color.red)
      (Reachable.step (Event.clickPad Color.red Color.red)
        (Reachable.step (Event.clickPad Color.red Color.red)
          (Reachable.step Event.playbackEnds
            (Reachable.step (Event.clickLevel 0 rng0)
              (Reachable.step Event.clickStart Reachable.init))))))
    (Or.inr (by decide))

/-! ## Claim C10: the score is 100 per completed round -/

set_option maxRecDepth 4000 in
/-- Claim C10: in every reachable state the score is exactly 100 times the
number of rounds completed in the current run (hence a non-negative multiple
of 100); on the victory screen the recorded final score equals the current
score, which already includes the final round's bonus — winning a run started
at the first of the five catalog levels records 500. -/
theorem score_is_100_per_round (s : GameState) (h : Reachable s) :
    s.score = 100 * s.roundsCompleted ∧
    100 ∣ s.score ∧
    (s.screen = Screen.victory → s.victoryScore = some s.score) ∧
    (runTrace winTrace initState).victoryScore = some 500 ∧
    (runTrace winTrace initState).score = 500 := by
  obtain ⟨_, _, _, _, h5, h6⟩ := stateInv_reachable s h
  exact ⟨h5, ⟨s.roundsCompleted, h5⟩, h6, by decide, by decide⟩

set_option maxRecDepth 4000 in
/-- Witness for C10 at the initial state. -/
theorem score_is_100_per_round_witness :
    initState.score = 100 * initState.roundsCompleted ∧
    100 ∣ initState.score ∧
    (initState.screen = Screen.victory → initState.victoryScore = some initState.score) ∧
    (runTrace winTrace initState).victoryScore = some 500 ∧
    (runTrace winTrace initState).score = 500 :=
  score_is_100_per_round initState Reachable.init

/-! ## Claim C4: reproducing the whole sequence advances or wins -/

lemma get?_eq_some_getD {α : Type} (l : List α) (i : Nat) (d : α)
    (h : i < l.length) : l.get? i = some (l.getD i d) := by
  cases hx : l.get? i with
  | none =>
      rw [List.get?_eq_none] at hx
      omega
  | some a =>
      rw [List.getD_eq_get?, hx]
      rfl

lemma onPadPress_correct_step (c r : Color) (s : GameState)
    (hscr : s.screen = Screen.game) (hacc : s.acceptingInput = true)
    (hani : s.isAnimatingSequence = false)
    (hc : s.sequence.get? s.inputIndex = some c)
    (hlt : s.inputIndex + 1 < s.sequence.length) :
    (onPadPress c r s).1 = { s with inputIndex := s.inputIndex + 1 } := by
  obtain ⟨scr, li, sc, seq, ii, ai, me, ias, pp, pt, fs, vs, rc⟩ := s
  dsimp at *
  subst hscr hacc hani
  simp only [onPadPress]
  rw [if_neg (by simp), if_neg (by rw [hc]; simp)]
  rw [if_neg (by omega)]

lemma onPadPress_correct_last (c r : Color) (s : GameState)
    (hscr : s.screen = Screen.game) (hacc : s.acceptingInput = true)
    (hani : s.isAnimatingSequence = false)
    (hc : s.sequence.get? s.inputIndex = some c)
    (hlen : s.inputIndex + 1 = s.sequence.length) :
    (onPadPress c r s).1 =
      advanceLevelOrWin r { s with inputIndex := s.inputIndex + 1, acceptingInput := false } := by
  obtain ⟨scr, li, sc, seq, ii, ai, me, ias, pp, pt, fs, vs, rc⟩ := s
  dsimp at *
  subst hscr hacc hani
  simp only [onPadPress]
  rw [if_neg (by simp), if_neg (by rw [hc]; simp)]
  rw [if_pos (by omega)]

lemma pressCorrect_run (r : Color) (k : Nat) : ∀ (s : GameState),
    s.screen = Screen.game → s.acceptingInput = true →
    s.isAnimatingSequence = false →
    s.inputIndex + (k + 1) = s.sequence.length →
    pressCorrect r (k + 1) s =
      advanceLevelOrWin r { s with inputIndex := s.sequence.length, acceptingInput := false } := by
  induction k with
  | zero =>
      intro s hscr hacc hani hlen
      have hc : s.sequence.get? s.inputIndex =
          some (s.sequence.getD s.inputIndex Color.red) :=
        get?_eq_some_getD _ _ _ (by omega)
      show pressCorrect r 0 (onPadPress (s.sequence.getD s.inputIndex Color.red) r s).1 = _
      rw [show pressCorrect r 0 (onPadPress (s.sequence.getD s.inputIndex Color.red) r s).1 =
        (onPadPress (s.sequence.getD s.inputIndex Color.red) r s).1 from rfl]
      rw [onPadPress_correct_last _ r s hscr hacc hani hc (by omega)]
      rw [show s.inputIndex + 1 = s.sequence.length from by omega]
  | succ k ih =>
      intro s hscr hacc hani hlen
      have hc : s.sequence.get? s.inputIndex =
          some (s.sequence.getD s.inputIndex Color.red) :=
        get?_eq_some_getD _ _ _ (by omega)
      show pressCorrect r (k + 1) (onPadPress (s.sequence.getD s.inputIndex Color.red) r s).1 = _
      rw [onPadPress_correct_step _ r s hscr hacc hani hc (by omega)]
      rw [ih { s with inputIndex := s.inputIndex + 1 } hscr hacc hani (by dsimp; omega)]

/-- Claim C4: while input is accepted on the game screen, submitting the
entire remaining correct sequence produces exactly one of two outcomes —
the victory transition precisely when the level index is the last catalog
entry, otherwise the level-advance path (level incremented, 650 ms timer
registered, still on the game screen) — never both, never neither, and in
either case the score increases by exactly 100. -/
theorem correct_sequence_advances_or_wins (s : GameState) (r : Color)
    (hscr : s.screen = Screen.game) (hacc : s.acceptingInput = true)
    (hani : s.isAnimatingSequence = false) (hpt : s.pendingTimeout = false)
    (hlt : s.inputIndex < s.sequence.length) :
    (afterCorrectRun r s).score = s.score + 100 ∧
    ((afterCorrectRun r s).screen = Screen.victory ↔
      s.levelIndex = LEVELS.length - 1) ∧
    (((afterCorrectRun r s).screen = Screen.victory ∧
      (afterCorrectRun r s).pendingTimeout = false ∧
      (afterCorrectRun r s).levelIndex = s.levelIndex) ∨
     ((afterCorrectRun r s).screen = Screen.game ∧
      (afterCorrectRun r s).pendingTimeout = true ∧
      (afterCorrectRun r s).levelIndex = s.levelIndex + 1)) := by
  have hk : s.sequence.length - s.inputIndex =
      (s.sequence.length - s.inputIndex - 1) + 1 := by omega
  have hrun : afterCorrectRun r s =
      advanceLevelOrWin r { s with inputIndex := s.sequence.length, acceptingInput := false } := by
    rw [afterCorrectRun, hk]
    exact pressCorrect_run r _ s hscr hacc hani (by omega)
  rw [hrun]
  obtain ⟨scr, li, sc, seq, ii, ai, me, ias, pp, pt, fs, vs, rc⟩ := s
  dsimp at *
  subst hscr hpt
  simp only [advanceLevelOrWin]
  by_cases hl : li = LEVELS.length - 1
  · rw [if_pos (by exact hl)]
    exact ⟨rfl, iff_of_true rfl hl, Or.inl ⟨rfl, rfl, rfl⟩⟩
  · rw [if_neg (by exact hl)]
    exact ⟨rfl, iff_of_false (fun h => Screen.noConfusion h) hl, Or.inr ⟨rfl, rfl, rfl⟩⟩

/-- Witness for C4: reproducing the three-signal first-round sequence from
`readyState` takes the level-advance path with score 100. -/
theorem correct_sequence_advances_or_wins_witness :
    (afterCorrectRun Color.blue readyState).score = readyState.score + 100 ∧
    ((afterCorrectRun Color.blue readyState).screen = Screen.victory ↔
      readyState.levelIndex = LEVELS.length - 1) ∧
    (((afterCorrectRun Color.blue readyState).screen = Screen.victory ∧
      (afterCorrectRun Color.blue readyState).pendingTimeout = false ∧
      (afterCorrectRun Color.blue readyState).levelIndex = readyState.levelIndex) ∨
     ((afterCorrectRun Color.blue readyState).screen = Screen.game ∧
      (afterCorrectRun Color.blue readyState).pendingTimeout = true ∧
      (afterCorrectRun Color.blue readyState).levelIndex = readyState.levelIndex + 1)) :=
  correct_sequence_advances_or_wins readyState Color.blue
    (by decide) (by decide) (by decide) (by decide) (by decide)

/-! ## Claim C1: playback timing -/

lemma frameLoop_spec (n minI : Nat) (ticks : List Nat) :
    ∀ (k L : Nat) (es : List (Nat × Nat)) (d : Option Nat),
    0 < L → k ≤ n →
    (∀ t ∈ ticks, L < t) → List.Pairwise (· < ·) ticks →
    frameLoop n minI ⟨k, L⟩ ticks = (es, d) →
    es.map Prod.snd = List.range' k es.length ∧
    k + es.length ≤ n ∧
    (∀ e ∈ es, L + minI ≤ e.1) ∧
    Spaced minI es ∧
    ∀ tD, d = some tD →
      k + es.length = n ∧ (es.map Prod.fst).getLastD L + minI ≤ tD := by
  induction ticks with
  | nil =>
      intro k L es d hL hk hgt hpw heq
      simp only [frameLoop] at heq
      injection heq with h1 h2
      subst h1
      subst h2
      refine ⟨rfl, by simpa using hk, ?_, List.chain'_nil, ?_⟩
      · intro e he
        exact absurd he (List.not_mem_nil e)
      · intro tD hD
        exact Option.noConfusion hD
  | cons ts rest ih =>
      intro k L es d hL hk hgt hpw heq
      have hLt : L < ts := hgt ts (by simp)
      have hgt' : ∀ t ∈ rest, ts < t := (List.pairwise_cons.mp hpw).1
      have hpw' : List.Pairwise (· < ·) rest := (List.pairwise_cons.mp hpw).2
      simp only [frameLoop] at heq
      rw [if_neg (by omega)] at heq
      by_cases hiv : minI ≤ ts - L
      · rw [if_pos hiv] at heq
        by_cases hkn : n ≤ k
        · rw [if_pos hkn] at heq
          injection heq with h1 h2
          subst h1
          subst h2
          refine ⟨rfl, by simpa using hk, ?_, List.chain'_nil, ?_⟩
          · intro e he
            exact absurd he (List.not_mem_nil e)
          · intro tD hD
            injection hD with h3
            subst h3
            refine ⟨by simp only [List.length_nil]; omega, ?_⟩
            simp only [List.map_nil, List.getLastD_nil]
            omega
        · rw [if_neg hkn] at heq
          injection heq with h1 h2
          subst h1
          subst h2
          obtain ⟨m1, m2, m3, m4, m5⟩ :=
            ih (k + 1) ts (frameLoop n minI ⟨k + 1, ts⟩ rest).1
              (frameLoop n minI ⟨k + 1, ts⟩ rest).2
              (by omega) (by omega) hgt' hpw' rfl
          refine ⟨?_, ?_, ?_, ?_, ?_⟩
          · simp only [List.map_cons, List.length_cons, List.range'_succ, m1]
          · simp only [List.length_cons]
            omega
          · intro e he
            rcases List.mem_cons.mp he with he | he
            · subst he
              show L + minI ≤ ts
              omega
            · have := m3 e he
              omega
          · rw [Spaced, List.chain'_cons']
            refine ⟨?_, m4⟩
            intro b hb
            exact m3 b (List.mem_of_mem_head? hb)
          · intro tD hD
            obtain ⟨m5a, m5b⟩ := m5 tD hD
            refine ⟨by simp only [List.length_cons]; omega, ?_⟩
            rw [List.map_cons, List.getLastD_cons]
            exact m5b
      · rw [if_neg hiv] at heq
        obtain ⟨m1, m2, m3, m4, m5⟩ :=
          ih k L es d hL hk (fun t ht => lt_trans hLt (hgt' t ht)) hpw' heq
        exact ⟨m1, m2, m3, m4, m5⟩

/-- Counterexample to claim C1 as stated. The tick series `[0, 10, 710]` is
strictly increasing and non-negative, yet with a two-signal sequence at
`stepMs = 700` the playback emits element 1 only 10 ms after element 0,
far below the effective interval `max(280, 700)`: the source's
`if (!lastStamp)` test treats the recorded first-tick timestamp 0 as "no
emit yet", so the second tick re-enters the first-emit branch. -/
theorem playSequenceWithRaf_zero_first_tick_cex :
    playSequenceWithRaf 2 700 [0, 10, 710] = ([(0, 0), (10, 1)], some 710) ∧
    ¬ Spaced (minInterval 700) [(0, 0), (10, 1)] := by
  constructor
  · decide
  · intro h
    rw [Spaced, List.chain'_cons] at h
    exact absurd (h.1) (by decide)

/-- Claim C1, amended to tick series whose first timestamp is nonzero (the
source uses timestamp 0 as the "no emit yet" sentinel): for every non-empty
sequence (length `n > 0`) and every strictly increasing series of positive
tick timestamps on which the playback runs to completion, the effective
interval is at least the 280 ms floor; exactly one emission happens per
sequence element, in index order; the first element is emitted on the very
first tick; consecutive emissions are at least `max(280, stepMs)` apart
(hence never on the same tick); and `onDone` runs (exactly once, by
construction of the loop) only after at least that interval has elapsed
since the final emission. -/
theorem playSequenceWithRaf_spec (n stepMs t1 : Nat) (rest : List Nat)
    (es : List (Nat × Nat)) (tD : Nat)
    (hn : 0 < n) (ht1 : 0 < t1)
    (hinc : List.Pairwise (· < ·) (t1 :: rest))
    (hrun : playSequenceWithRaf n stepMs (t1 :: rest) = (es, some tD)) :
    280 ≤ minInterval stepMs ∧
    es.map Prod.snd = List.range n ∧
    es.head? = some (t1, 0) ∧
    Spaced (minInterval stepMs) es ∧
    (es.map Prod.fst).getLastD 0 + minInterval stepMs ≤ tD := by
  rw [playSequenceWithRaf] at hrun
  simp only [frameLoop] at hrun
  rw [if_pos trivial] at hrun
  injection hrun with h1 h2
  subst h1
  set out := frameLoop n (minInterval stepMs) ⟨0 + 1, t1⟩ rest with hout
  obtain ⟨m1, m2, m3, m4, m5⟩ :=
    frameLoop_spec n (minInterval stepMs) rest 1 t1 out.1 out.2
      ht1 hn (List.pairwise_cons.mp hinc).1 (List.pairwise_cons.mp hinc).2 rfl
  obtain ⟨m5a, m5b⟩ := m5 tD h2
  refine ⟨Nat.le_max_left 280 stepMs, ?_, rfl, ?_, ?_⟩
  · rw [List.map_cons, m1, List.range_eq_range']
    rw [show n = out.1.length + 1 from by omega, List.range'_succ]
  · rw [Spaced, List.chain'_cons']
    refine ⟨?_, m4⟩
    intro b hb
    exact m3 b (List.mem_of_mem_head? hb)
  · rw [List.map_cons, List.getLastD_cons]
    exact m5b

/-- Witness for C1 (amended): a two-signal playback at `stepMs = 700` over
ticks `[5, 705, 1405]` emits at 5 and 705 and completes at 1405. -/
theorem playSequenceWithRaf_spec_witness :
    280 ≤ minInterval 700 ∧
    ([(5, 0), (705, 1)] : List (Nat × Nat)).map Prod.snd = List.range 2 ∧
    ([(5, 0), (705, 1)] : List (Nat × Nat)).head? = some (5, 0) ∧
    Spaced (minInterval 700) [(5, 0), (705, 1)] ∧
    (([(5, 0), (705, 1)] : List (Nat × Nat)).map Prod.fst).getLastD 0 +
        minInterval 700 ≤ 1405 :=
  playSequenceWithRaf_spec 2 700 5 [705, 1405] [(5, 0), (705, 1)] 1405
    (by decide) (by decide) (by decide) (by decide)
